import Mathlib

/-!
Verification development for the iwp-laser-tools repository.

Shallow embedding of:
 * `src/iwp_protocol.py` — the IWP wire-protocol decoder
   (`IWPProtocolParser.parse_packet`) and the coordinate mapping helpers
   (`iwp_to_screen_coords`, `ilda_to_screen_coords`);
 * `src/ilda_integration.py` — the ILDA file decoder
   (`ILDALoader._parse_ilda_data`), the playback clock (`ILDAPlayer`),
   and the network sender (`ProjectorSender`: `_transform_xy`,
   `_to_u16_from_u8`, scan-period computation, `send_frame` chunking);
 * `src/laser_visualizer.py` — `LaserVisualizer._convert_color_to_8bit`;
 * `src/udp_server.py` — `UDPServer` receive bookkeeping and
   `is_connected`.

Bytes are modelled as `Fin 256`; Python ints as `ℤ`/`ℕ`, with Python's
`int(a/b)` (truncation towards zero) modelled by `Int.tdiv` — exact for
the magnitudes at play since the float quotients involved round-trip
truncation exactly.  Wall-clock times (Python floats from `time.time()`)
are modelled as `ℚ`.
-/

namespace IWPLaser

abbrev Byte := Fin 256

/-- Big-endian 16-bit unsigned value from two bytes (struct format `>H`). -/
def u16be (hi lo : Byte) : ℕ := hi.val * 256 + lo.val

/-- Big-endian 32-bit unsigned value from four bytes (struct format `>I`). -/
def u32be (b0 b1 b2 b3 : Byte) : ℕ :=
  ((b0.val * 256 + b1.val) * 256 + b2.val) * 256 + b3.val

/-- Big-endian signed 16-bit value from two bytes (struct format `>h`). -/
def s16be (hi lo : Byte) : ℤ :=
  let v : ℤ := hi.val * 256 + lo.val
  if v < 32768 then v else v - 65536

/-! ### IWP wire protocol decode (`iwp_protocol.py`, `IWPProtocolParser.parse_packet`) -/

/-- A decoded laser point (`IWPPoint` dataclass in `iwp_protocol.py`). -/
structure IWPPoint where
  x : ℕ
  y : ℕ
  r : ℕ
  g : ℕ
  b : ℕ
  blanking : Bool
deriving Repr, DecidableEq

/-- One IWP command (`IWPCommand` dataclass: `cmd_type` together with its
`data` payload). -/
inductive IWPCmd where
  | type0 : IWPCmd
  | type1 (period : ℕ) : IWPCmd
  | type2 (x y r g b : ℕ) : IWPCmd
  | type3 (x y r g b : ℕ) : IWPCmd
deriving Repr, DecidableEq

/-- One iteration of the command-walk loop in `parse_packet`: reads the
command byte at the current offset and its fixed-size payload.  Returns
`none` when the loop would `break`: unknown command byte, or fewer bytes
remaining than the declared payload needs. -/
def parseStep : List Byte → Option (IWPCmd × List Byte)
  | [] => none
  | c :: rest =>
    if c.val = 0 then
      some (.type0, rest)
    else if c.val = 1 then
      match rest with
      | b0 :: b1 :: b2 :: b3 :: rest2 => some (.type1 (u32be b0 b1 b2 b3), rest2)
      | _ => none
    else if c.val = 2 then
      match rest with
      | xh :: xl :: yh :: yl :: r :: g :: b :: rest2 =>
        some (.type2 (u16be xh xl) (u16be yh yl) r.val g.val b.val, rest2)
      | _ => none
    else if c.val = 3 then
      match rest with
      | xh :: xl :: yh :: yl :: rh :: rl :: gh :: gl :: bh :: bl :: rest2 =>
        some (.type3 (u16be xh xl) (u16be yh yl) (u16be rh rl) (u16be gh gl)
                (u16be bh bl), rest2)
      | _ => none
    else none

theorem parseStep_length_lt {rest : List Byte} {cmd : IWPCmd} {rest2 : List Byte}
    (h : parseStep rest = some (cmd, rest2)) : rest2.length < rest.length := by
  match rest with
  | [] => simp [parseStep] at h
  | c :: t =>
    simp only [parseStep] at h
    split at h
    · cases h; simp
    · split at h
      · split at h
        · cases h; simp; omega
        · cases h
      · split at h
        · split at h
          · cases h; simp; omega
          · cases h
        · split at h
          · split at h
            · cases h; simp; omega
            · cases h
          · cases h

/-- The `while offset < len(data)` walk of `parse_packet`, accumulating the
points, the command list and the scan period.  The scan period returned is
that of the last `TYPE_1` command seen (each `TYPE_1` overwrites
`scan_period`).  A `TYPE_2` point is appended with `blanking=False`; a
`TYPE_3` point with `blanking = (r == 0 and g == 0 and b == 0)`. -/
def parseLoop (rest : List Byte) : List IWPPoint × List IWPCmd × Option ℕ :=
  match h : parseStep rest with
  | none => ([], [], none)
  | some (cmd, rest2) =>
    let res := parseLoop rest2
    match cmd with
    | .type0 => (res.1, .type0 :: res.2.1, res.2.2)
    | .type1 p => (res.1, .type1 p :: res.2.1, some (res.2.2.getD p))
    | .type2 x y r g b =>
      (⟨x, y, r, g, b, false⟩ :: res.1, .type2 x y r g b :: res.2.1, res.2.2)
    | .type3 x y r g b =>
      (⟨x, y, r, g, b, r == 0 && g == 0 && b == 0⟩ :: res.1,
        .type3 x y r g b :: res.2.1, res.2.2)
termination_by rest.length
decreasing_by exact parseStep_length_lt h

/-- A decoded IWP packet (`IWPPacket` dataclass; the receive timestamp is
omitted — it is wall-clock metadata unused by any parsing logic). -/
structure IWPPacket where
  points : List IWPPoint
  commands : List IWPCmd
  point_count : ℕ
  scan_period : Option ℕ
  raw_size : ℕ
deriving Repr, DecidableEq

/-- `IWPProtocolParser.parse_packet`: rejects the empty datagram, otherwise
walks the buffer and returns everything accumulated. -/
def parse_packet (data : List Byte) : Option IWPPacket :=
  if data.length = 0 then none
  else
    let res := parseLoop data
    some ⟨res.1, res.2.1, res.1.length, res.2.2, data.length⟩

/-! ### Coordinate mappings (`iwp_protocol.py`) -/

/-- `ProjectorSender._u16`: Python `x & 0xFFFF`, i.e. the nonnegative
residue mod 65536. -/
def pyU16 (v : ℤ) : ℤ := v % 65536

/-- `ProjectorSender._transform_xy`: `xn = x + 0x8000`, `yn = -y + 0x8000`,
both reduced to unsigned 16-bit. -/
def transform_xy (x y : ℤ) : ℤ × ℤ :=
  (pyU16 (x + 0x8000), pyU16 (-y + 0x8000))

/-- Clamp a screen coordinate to `[0, dim - 1]`
(Python `max(0, min(dim - 1, v))`). -/
def clampDim (dim v : ℤ) : ℤ := max 0 (min (dim - 1) v)

/-- `iwp_to_screen_coords`: `int(x * W / 65536)` then clamp.  The Python
`int(... / 65536)` truncates toward zero; division by the power of two
65536 is exact in binary floating point, so `Int.tdiv` models it
exactly. -/
def iwp_to_screen_coords (x y W H : ℤ) : ℤ × ℤ :=
  (clampDim W (Int.tdiv (x * W) 65536), clampDim H (Int.tdiv (y * H) 65536))

/-- `ilda_to_screen_coords`: applies `x + 32768`, `-y + 32768` (without any
16-bit wrap), maps to screen and clamps. -/
def ilda_to_screen_coords (x y W H : ℤ) : ℤ × ℤ :=
  (clampDim W (Int.tdiv ((x + 32768) * W) 65536),
   clampDim H (Int.tdiv ((-y + 32768) * H) 65536))

/-! ### Color conversion -/

/-- `ProjectorSender._to_u16_from_u8`: `(c & 0xFF) * 257`. -/
def to_u16_from_u8 (c : ℕ) : ℕ := (c % 256) * 257

/-- One channel of `LaserVisualizer._convert_color_to_8bit`:
`min(255, c >> 8) if c > 255 else c`. -/
def narrowChannel (c : ℕ) : ℕ := if c > 255 then min 255 (c >>> 8) else c

/-- `LaserVisualizer._convert_color_to_8bit` applied to all three
channels. -/
def convert_color_to_8bit (r g b : ℕ) : ℕ × ℕ × ℕ :=
  (narrowChannel r, narrowChannel g, narrowChannel b)

/-! ### Scan period (`ProjectorSender.__init__` line 287 and
`ProjectorSender.set_scan_rate` line 394, identical expressions) -/

/-- `max(1, min(4294967295, int(1000000 / int(scan_rate))))`.  Python's
`int(float_quotient)` truncates toward zero (`Int.tdiv`); `1000000 / 0`
raises `ZeroDivisionError`, modelled as `none`. -/
def scanPeriodOfRate (hz : ℤ) : Option ℤ :=
  if hz = 0 then none
  else some (max 1 (min 4294967295 (Int.tdiv 1000000 hz)))

/-! ### Frame encoding and chunking (`ProjectorSender.send_frame`) -/

/-- An ILDA point tuple `(x, y, z, status, r, g, b)` as passed to
`send_frame`. -/
structure IldaPoint where
  x : ℤ
  y : ℤ
  z : ℤ
  status : ℕ
  r : ℕ
  g : ℕ
  b : ℕ
deriving Repr, DecidableEq

/-- `STATUS_BLANKED_MASK = 0b0100_0000`. -/
def STATUS_BLANKED_MASK : ℕ := 64

/-- Big-endian bytes of a 16-bit value (struct `>H`), as natural numbers. -/
def u16beBytes (v : ℕ) : List ℕ := [v / 256 % 256, v % 256]

/-- One `struct.pack(">B H H H H H", IW_TYPE_3, x16, y16, r16, g16, b16)`
record of `send_frame`: 11 bytes, colors forced to zero when the status
byte has the blanking bit set, otherwise expanded 8→16 bit. -/
def encodePoint (p : IldaPoint) : List ℕ :=
  let t := transform_xy p.x p.y
  let blanked := p.status &&& STATUS_BLANKED_MASK ≠ 0
  let r16 := if blanked then 0 else to_u16_from_u8 p.r
  let g16 := if blanked then 0 else to_u16_from_u8 p.g
  let b16 := if blanked then 0 else to_u16_from_u8 p.b
  3 :: (u16beBytes t.1.toNat ++ u16beBytes t.2.toNat ++
    u16beBytes r16 ++ u16beBytes g16 ++ u16beBytes b16)

/-- Successive slices `l[i : i + n]` for `i in range(0, len(l), n)`. -/
def chunksOf (n : ℕ) (hn : 0 < n) (l : List α) : List (List α) :=
  match l with
  | [] => []
  | a :: t => (a :: t).take n :: chunksOf n hn ((a :: t).drop n)
termination_by l.length
decreasing_by simp; omega

/-- The datagrams sent by `send_frame points`: each point packed as an
11-byte record, the record list sliced `max_points_per_packet = 1023 // 11`
records at a time, each slice joined; empty chunks are skipped (the
`if chunk:` guard). -/
def send_frame_chunks (points : List IldaPoint) : List (List ℕ) :=
  ((chunksOf (1023 / 11) (by norm_num) (points.map encodePoint)).map
      List.flatten).filter (fun c => !c.isEmpty)

/-! ### Playback clock (`ILDAPlayer`) -/

/-- The playback state touched by `next_frame` (`current_frame`, `playing`,
`loop`); the frame count comes from the loader. -/
structure PlayerState where
  current_frame : ℕ
  playing : Bool
  loop : Bool
deriving Repr, DecidableEq

/-- `ILDAPlayer.next_frame` with `count = loader.get_frame_count()`:
advance modulo the frame count; without looping, wrapping to 0 instead
clamps back to the last frame and stops playback. -/
def next_frame (count : ℕ) (st : PlayerState) : PlayerState :=
  if 0 < count then
    let cur := (st.current_frame + 1) % count
    if st.loop = false ∧ cur = 0 then
      { st with current_frame := count - 1, playing := false }
    else
      { st with current_frame := cur }
  else st

/-! ### Claim C1: sender path vs preview path -/

/-- C1 (counterexample): at the ILDA point `(0, -32768)` on a 2×2 screen
the device-bound sender path (wrap to unsigned 16-bit, then
`iwp_to_screen_coords`) lands on row 0 while the preview
`ilda_to_screen_coords` lands on row 1 — the two paths do Not agree
pixel-for-pixel on all of `[-32768, 32767]`. -/
theorem c1_sender_preview_mismatch :
    iwp_to_screen_coords (transform_xy 0 (-32768)).1 (transform_xy 0 (-32768)).2 2 2
      ≠ ilda_to_screen_coords 0 (-32768) 2 2 := by
  decide

/-- C1 (amended): for every ILDA point `(x, y)` with `x ∈ [-32768, 32767]`
and `y ∈ [-32767, 32767]` (i.e. excluding only `y = -32768`, where the
sender wraps `-y + 32768 = 65536` to 0 while the preview clamps), and every
screen size, the sender transform followed by the wire-to-screen mapping
yields exactly the same pixel as the preview function. -/
theorem c1_sender_preview_agree (x y W H : ℤ)
    (hx0 : -32768 ≤ x) (hx1 : x ≤ 32767) (hy0 : -32767 ≤ y) (hy1 : y ≤ 32767) :
    iwp_to_screen_coords (transform_xy x y).1 (transform_xy x y).2 W H
      = ilda_to_screen_coords x y W H := by
  have h1 : pyU16 (x + 0x8000) = x + 32768 :=
    Int.emod_eq_of_lt (by omega) (by omega)
  have h2 : pyU16 (-y + 0x8000) = -y + 32768 :=
    Int.emod_eq_of_lt (by omega) (by omega)
  simp [transform_xy, h1, h2, iwp_to_screen_coords, ilda_to_screen_coords]

/-- C1 witness: the amended agreement at the concrete point `(100, -200)`
on an 800×600 screen. -/
theorem c1_sender_preview_agree_witness :
    iwp_to_screen_coords (transform_xy 100 (-200)).1 (transform_xy 100 (-200)).2 800 600
      = ilda_to_screen_coords 100 (-200) 800 600 :=
  c1_sender_preview_agree 100 (-200) 800 600 (by norm_num) (by norm_num)
    (by norm_num) (by norm_num)

/-! ### Claim C2: scan period computation -/

/-- C2 (counterexample): at `scan_rate = 6` the code truncates
`1000000 / 6` to `166666`, while `round(1000000 / 6) = 166667`; and at
`scan_rate = 0` the code raises `ZeroDivisionError` (modelled `none`)
rather than clamping. -/
theorem c2_scan_period_counterexample :
    scanPeriodOfRate 6 = some 166666 ∧
    (max 1 (min 4294967295 (round ((1000000 : ℚ) / 6))) : ℤ) = 166667 ∧
    scanPeriodOfRate 0 = none := by
  refine ⟨by decide, ?_, by decide⟩
  have h : round ((1000000 : ℚ) / 6) = (166667 : ℤ) := by
    rw [round_eq]; norm_num
  rw [h]; decide

/-- C2 (amended claim, spec side): for a positive rate the period is the
floor of `1000000 / hz` clamped to `[1, 4294967295]`; a negative rate
clamps to the 1 µs minimum; a zero rate fails (`ZeroDivisionError`). -/
def scanPeriodAmendedSpec (hz : ℤ) : Option ℤ :=
  if 0 < hz then some (max 1 (min 4294967295 (1000000 / hz)))
  else if hz < 0 then some 1
  else none

/-- C2 (amended): the scan period sent in the type-1 datagram (computed
identically by `ProjectorSender.__init__` and `set_scan_rate`) agrees with
the amended contract `scanPeriodAmendedSpec` for every rate. -/
theorem c2_scan_period_amended (hz : ℤ) :
    scanPeriodOfRate hz = scanPeriodAmendedSpec hz := by
  unfold scanPeriodOfRate scanPeriodAmendedSpec
  rcases lt_trichotomy hz 0 with h | h | h
  · rw [if_neg (by omega), if_neg (by omega), if_pos h]
    have hd : Int.tdiv 1000000 hz ≤ 0 := by
      have := @Int.tdiv_nonpos 1000000 hz (by norm_num) (le_of_lt h)
      exact this
    congr 1
    omega
  · subst h; simp
  · rw [if_neg (by omega), if_pos h]
    rw [Int.tdiv_eq_ediv (by norm_num) (le_of_lt h)]

/-! ### Claim C6: 8-bit/16-bit color expansion round trip -/

/-- C6: `expand8to16(c) = c * 257` on `[0, 255]` (so `expand8to16(255) =
65535`, `expand8to16(0) = 0`) and narrowing back for 8-bit display
recovers `c` exactly. -/
theorem c6_color_roundtrip :
    to_u16_from_u8 255 = 65535 ∧ to_u16_from_u8 0 = 0 ∧
    ∀ c : ℕ, c ≤ 255 → to_u16_from_u8 c = c * 257 ∧
      narrowChannel (to_u16_from_u8 c) = c := by
  refine ⟨by decide, by decide, fun c hc => ⟨?_, ?_⟩⟩
  · unfold to_u16_from_u8
    rw [Nat.mod_eq_of_lt (by omega)]
  · unfold narrowChannel to_u16_from_u8
    rw [Nat.mod_eq_of_lt (by omega)]
    rcases Nat.eq_zero_or_pos c with h | h
    · subst h; simp
    · rw [if_pos (by omega), Nat.shiftRight_eq_div_pow]
      have hd : c * 257 / 2 ^ 8 = c := by omega
      rw [hd]
      omega

/-- C6 witness: the round trip at the concrete channel value 200. -/
theorem c6_color_roundtrip_witness :
    (200 : ℕ) ≤ 255 ∧ (to_u16_from_u8 200 = 200 * 257 ∧
      narrowChannel (to_u16_from_u8 200) = 200) :=
  ⟨by decide, c6_color_roundtrip.2.2 200 (by decide)⟩

/-! ### Claim C8: playback clock at the last frame -/

/-- C8: from the last frame of a non-empty frame list, `next_frame` with
loop disabled clamps to the last index, stops playback, and is idempotent
from then on; with loop enabled it wraps to index 0 and leaves `playing`
unchanged. -/
theorem c8_next_frame_last (count : ℕ) (st : PlayerState)
    (hc : 0 < count) (hcur : st.current_frame = count - 1) :
    (st.loop = false →
      (next_frame count st).current_frame = count - 1 ∧
      (next_frame count st).playing = false ∧
      next_frame count (next_frame count st) = next_frame count st) ∧
    (st.loop = true →
      (next_frame count st).current_frame = 0 ∧
      (next_frame count st).playing = st.playing) := by
  obtain ⟨cur, pl, lp⟩ := st
  simp only at hcur
  subst hcur
  have h1 : (count - 1 + 1) % count = 0 := by
    rw [Nat.sub_add_cancel hc, Nat.mod_self]
  constructor
  · rintro rfl
    simp [next_frame, hc, h1]
  · rintro rfl
    simp [next_frame, hc, h1]

/-- C8 witness: a 3-frame list at index 2; with loop disabled the index
stays at 2 and playback stops. -/
theorem c8_next_frame_last_witness :
    (next_frame 3 ⟨2, true, false⟩).current_frame = 2 ∧
    (next_frame 3 ⟨2, true, false⟩).playing = false :=
  ⟨((c8_next_frame_last 3 ⟨2, true, false⟩ (by decide) rfl).1 rfl).1,
   ((c8_next_frame_last 3 ⟨2, true, false⟩ (by decide) rfl).1 rfl).2.1⟩

/-! ### Claim C10: the IWP command walk strictly advances -/

/-- C10: every successful iteration of the `parse_packet` command-walk
loop strictly shrinks the remaining buffer, consuming exactly 1, 5, 8 or
11 bytes according to the command type; otherwise the loop exits.  Hence
the offset strictly increases toward the buffer length and the walk
terminates on every input. -/
theorem c10_parse_step_advances (rest : List Byte) (cmd : IWPCmd)
    (rest2 : List Byte) (h : parseStep rest = some (cmd, rest2)) :
    rest2.length < rest.length ∧
    (rest.length - rest2.length = 1 ∨ rest.length - rest2.length = 5 ∨
     rest.length - rest2.length = 8 ∨ rest.length - rest2.length = 11) := by
  match rest with
  | [] => simp [parseStep] at h
  | c :: t =>
    simp only [parseStep] at h
    split at h
    · cases h; simp
    · split at h
      · split at h
        · cases h; constructor <;> simp <;> omega
        · cases h
      · split at h
        · split at h
          · cases h; constructor <;> simp <;> omega
          · cases h
        · split at h
          · split at h
            · cases h; constructor <;> simp <;> omega
            · cases h
          · cases h

/-- C10 witness: a single `TYPE_1` command consumes exactly 5 bytes. -/
theorem c10_parse_step_advances_witness :
    ([] : List Byte).length < ([1, 0, 0, 3, 232] : List Byte).length ∧
    (([1, 0, 0, 3, 232] : List Byte).length - ([] : List Byte).length = 1 ∨
     ([1, 0, 0, 3, 232] : List Byte).length - ([] : List Byte).length = 5 ∨
     ([1, 0, 0, 3, 232] : List Byte).length - ([] : List Byte).length = 8 ∨
     ([1, 0, 0, 3, 232] : List Byte).length - ([] : List Byte).length = 11) :=
  c10_parse_step_advances [1, 0, 0, 3, 232] (.type1 1000) [] (by decide)

/-! ### Claim C4: frame encoding and chunk slicing -/

theorem encodePoint_length (p : IldaPoint) : (encodePoint p).length = 11 := by
  simp [encodePoint, u16beBytes]

theorem chunksOf_flatten {α : Type} (n : ℕ) (hn : 0 < n) (l : List α) :
    (chunksOf n hn l).flatten = l := by
  induction l using chunksOf.induct n hn with
  | case1 => simp [chunksOf]
  | case2 a t ih =>
    rw [chunksOf]
    simp only [List.flatten_cons]
    rw [ih, List.take_append_drop]

theorem chunksOf_mem {α : Type} (n : ℕ) (hn : 0 < n) (l : List α) :
    ∀ c ∈ chunksOf n hn l, (0 < c.length ∧ c.length ≤ n) ∧ ∀ s ∈ c, s ∈ l := by
  induction l using chunksOf.induct n hn with
  | case1 => simp [chunksOf]
  | case2 a t ih =>
    intro c hc
    rw [chunksOf] at hc
    rcases List.mem_cons.mp hc with rfl | hmem
    · refine ⟨⟨?_, ?_⟩, fun s hs => List.take_subset n _ hs⟩
      · simp [List.length_take]; omega
      · simp [List.length_take]
    · obtain ⟨hlen, hsub⟩ := ih c hmem
      exact ⟨hlen, fun s hs => List.drop_subset n _ (hsub s hs)⟩

/-- C4: every datagram produced by `send_frame` has a byte length that is a
positive multiple of 11 and at most 1023 (so no chunk boundary splits an
11-byte record), and concatenating all chunks in send order reproduces the
encoded byte stream of the points in order. -/
theorem c4_send_frame_chunking (points : List IldaPoint) (c : List ℕ)
    (hc : c ∈ send_frame_chunks points) :
    (c.length % 11 = 0 ∧ 0 < c.length ∧ c.length ≤ 1023) ∧
    (send_frame_chunks points).flatten = (points.map encodePoint).flatten := by
  constructor
  · have hc1 : c ∈ (chunksOf (1023 / 11) (by norm_num)
        (points.map encodePoint)).map List.flatten :=
      (List.mem_filter.mp hc).1
    obtain ⟨cc, hcc, rfl⟩ := List.mem_map.mp hc1
    obtain ⟨⟨hpos, hle⟩, hsub⟩ := chunksOf_mem _ _ _ cc hcc
    have hall : ∀ s ∈ cc, s.length = 11 := by
      intro s hs
      obtain ⟨p, _, rfl⟩ := List.mem_map.mp (hsub s hs)
      exact encodePoint_length p
    have hflat : cc.flatten.length = 11 * cc.length := by
      rw [List.length_flatten]
      have hrep : cc.map List.length = List.replicate (cc.map List.length).length 11 :=
        List.eq_replicate_of_mem (by
          intro b hb
          obtain ⟨s, hs, rfl⟩ := List.mem_map.mp hb
          exact hall s hs)
      rw [hrep, List.sum_replicate, List.length_map, smul_eq_mul]
      omega
    have hle93 : cc.length ≤ 93 := by omega
    refine ⟨?_, ?_, ?_⟩
    · rw [hflat]; exact Nat.mul_mod_right 11 cc.length
    · omega
    · omega
  · unfold send_frame_chunks
    rw [List.flatten_filter_not_isEmpty, ← List.flatten_flatten, chunksOf_flatten]

/-- C4 witness: a single all-black point at the origin yields one 11-byte
chunk. -/
theorem c4_send_frame_chunking_witness :
    ((([3, 128, 0, 128, 0, 0, 0, 0, 0, 0, 0] : List ℕ).length % 11 = 0 ∧
      0 < ([3, 128, 0, 128, 0, 0, 0, 0, 0, 0, 0] : List ℕ).length ∧
      ([3, 128, 0, 128, 0, 0, 0, 0, 0, 0, 0] : List ℕ).length ≤ 1023) ∧
     (send_frame_chunks [⟨0, 0, 0, 0, 0, 0, 0⟩]).flatten
       = ([(⟨0, 0, 0, 0, 0, 0, 0⟩ : IldaPoint)].map encodePoint).flatten) :=
  c4_send_frame_chunking [⟨0, 0, 0, 0, 0, 0, 0⟩] [3, 128, 0, 128, 0, 0, 0, 0, 0, 0, 0]
    (by simp [send_frame_chunks, chunksOf, encodePoint, transform_xy, pyU16,
          u16beBytes, to_u16_from_u8, STATUS_BLANKED_MASK])

/-! ### Claim C7: blanking inference on decode -/

/-- The blanking rule as specified: a type-3 point is blanked exactly when
all three wide color channels are zero; a type-2 point is never blanked;
non-point commands contribute no point. -/
def blankingRule : IWPCmd → List IWPPoint
  | .type2 x y r g b => [⟨x, y, r, g, b, false⟩]
  | .type3 x y r g b => [⟨x, y, r, g, b, decide (r = 0 ∧ g = 0 ∧ b = 0)⟩]
  | _ => []

theorem parseLoop_eq_none {rest : List Byte} (h : parseStep rest = none) :
    parseLoop rest = ([], [], none) := by
  rw [parseLoop]
  split
  · rfl
  · rename_i cmd' rest2' heq
    rw [h] at heq
    cases heq

theorem parseLoop_eq_some {rest : List Byte} {cmd : IWPCmd} {rest2 : List Byte}
    (h : parseStep rest = some (cmd, rest2)) :
    parseLoop rest =
      (match cmd with
       | .type0 => ((parseLoop rest2).1, .type0 :: (parseLoop rest2).2.1,
           (parseLoop rest2).2.2)
       | .type1 p => ((parseLoop rest2).1, .type1 p :: (parseLoop rest2).2.1,
           some ((parseLoop rest2).2.2.getD p))
       | .type2 x y r g b =>
           (⟨x, y, r, g, b, false⟩ :: (parseLoop rest2).1,
             .type2 x y r g b :: (parseLoop rest2).2.1, (parseLoop rest2).2.2)
       | .type3 x y r g b =>
           (⟨x, y, r, g, b, r == 0 && g == 0 && b == 0⟩ :: (parseLoop rest2).1,
             .type3 x y r g b :: (parseLoop rest2).2.1, (parseLoop rest2).2.2)) := by
  rw [parseLoop]
  split
  · rename_i heq
    rw [h] at heq
    cases heq
  · rename_i cmd' rest2' heq
    rw [h] at heq
    simp only [Option.some.injEq, Prod.mk.injEq] at heq
    obtain ⟨rfl, rfl⟩ := heq
    cases cmd <;> rfl

theorem parseLoop_points_blanking (rest : List Byte) :
    (parseLoop rest).1 = ((parseLoop rest).2.1).flatMap blankingRule := by
  induction rest using parseLoop.induct with
  | case1 x hx => rw [parseLoop_eq_none hx]; rfl
  | case2 x rest2 hx _ ih => rw [parseLoop_eq_some hx]; simp [blankingRule, ih]
  | case3 x rest2 p hx _ ih => rw [parseLoop_eq_some hx]; simp [blankingRule, ih]
  | case4 x rest2 x1 y r g b hx _ ih =>
    rw [parseLoop_eq_some hx]; simp [blankingRule, ih]
  | case5 x rest2 x1 y r g b hx _ ih =>
    rw [parseLoop_eq_some hx]
    simp only [blankingRule, List.flatMap_cons, ih]
    congr 2
    by_cases hr : r = 0 <;> by_cases hg : g = 0 <;> by_cases hb : b = 0 <;>
      simp [hr, hg, hb]

/-- C7: for every decoded IWP packet, the decoded point list obeys the
blanking rule command-by-command: a type-3 point is blanked iff all three
16-bit channels are zero, a type-2 point is never blanked. -/
theorem c7_blanking_inference (data : List Byte) :
    (parse_packet data).map IWPPacket.points
      = (parse_packet data).map (fun pk => pk.commands.flatMap blankingRule) := by
  unfold parse_packet
  split
  · rfl
  · simp [parseLoop_points_blanking data]

/-! ### Claim C3: receiver connectedness (`udp_server.py`) -/

/-- The `UDPServer` state touched by the receive loop that is relevant to
`is_connected`: `last_packet_time` (initially `0.0`) and the
`packets_valid` counter.  The bounded packet queue and the callback
dispatch carry no information for connectedness and are elided. -/
structure UDPServerState where
  last_packet_time : ℚ
  packets_valid : ℕ
deriving Repr, DecidableEq

/-- One iteration of `UDPServer._server_loop` receiving datagram `ev.2` at
wall-clock time `ev.1`: `last_packet_time` is updated *before* the parse
(line 105), unconditionally; only a successfully parsed packet bumps the
valid-packet count (and is queued). -/
def serverStep (st : UDPServerState) (ev : ℚ × List Byte) : UDPServerState :=
  let st1 : UDPServerState := { st with last_packet_time := ev.1 }
  match parse_packet ev.2 with
  | some _ => { st1 with packets_valid := st1.packets_valid + 1 }
  | none => st1

/-- The server state after receiving a time-stamped sequence of datagrams. -/
def runServer (events : List (ℚ × List Byte)) : UDPServerState :=
  events.foldl serverStep ⟨0, 0⟩

/-- `UDPServer.is_connected` at wall-clock time `now`:
`(now - last_packet_time) < 5.0 if last_packet_time > 0 else False`. -/
def is_connected (st : UDPServerState) (now : ℚ) : Bool :=
  if 0 < st.last_packet_time then decide (now - st.last_packet_time < 5) else false

theorem foldl_serverStep_lpt (events : List (ℚ × List Byte)) (st : UDPServerState) :
    (events.foldl serverStep st).last_packet_time
      = events.foldl (fun _ ev => ev.1) st.last_packet_time := by
  induction events generalizing st with
  | nil => rfl
  | cons e es ih =>
    simp only [List.foldl_cons]
    rw [ih]
    congr 1
    unfold serverStep
    cases parse_packet e.2 <;> rfl

/-- C3 (counterexample): after a single zero-length datagram — which
`parse_packet` rejects, so no valid packet ever arrived — `is_connected`
is nevertheless true one second later: the receive loop stamps
`last_packet_time` before parsing. -/
theorem c3_connected_counterexample :
    is_connected (runServer [((1 : ℚ), ([] : List Byte))]) 2 = true ∧
    parse_packet ([] : List Byte) = none := by
  constructor
  · norm_num [runServer, serverStep, is_connected, parse_packet]
  · rfl

/-- C3 (amended): with datagrams arriving in nondecreasing time order,
`is_connected` is true iff *some datagram* — valid or not — arrived at a
positive time within the last 5 seconds.  Parse failure does not exclude a
datagram from connectedness. -/
theorem c3_connected_amended (events : List (ℚ × List Byte)) (now : ℚ)
    (hs : events.Pairwise (fun a b => a.1 ≤ b.1)) :
    (is_connected (runServer events) now = true ↔
      ∃ ev ∈ events, 0 < ev.1 ∧ now - ev.1 < 5) := by
  rcases List.eq_nil_or_concat events with rfl | ⟨es, e, rfl⟩
  · simp [runServer, is_connected]
  · simp only [List.concat_eq_append] at hs ⊢
    have hlpt : (runServer (es ++ [e])).last_packet_time = e.1 := by
      rw [runServer, foldl_serverStep_lpt, List.foldl_append]
      rfl
    have hmono : ∀ ev ∈ es, ev.1 ≤ e.1 := by
      intro ev hev
      exact (List.pairwise_append.mp hs).2.2 ev hev e (by simp)
    rw [is_connected, hlpt]
    split
    · rename_i hpos
      simp only [decide_eq_true_eq]
      constructor
      · intro hnow
        exact ⟨e, by simp, hpos, hnow⟩
      · rintro ⟨ev, hev, hev0, hevlt⟩
        rcases List.mem_append.mp hev with h | h
        · have hle := hmono ev h
          linarith
        · simp only [List.mem_singleton] at h
          subst h
          exact hevlt
    · rename_i hpos
      simp only [Bool.false_eq_true, false_iff]
      rintro ⟨ev, hev, hev0, _⟩
      rcases List.mem_append.mp hev with h | h
      · have hle := hmono ev h
        exact hpos (lt_of_lt_of_le hev0 hle)
      · simp only [List.mem_singleton] at h
        subst h
        exact hpos hev0

/-- C3 witness: a single parseable datagram at time 1 makes the receiver
connected at time 3, in agreement with the amended criterion. -/
theorem c3_connected_amended_witness :
    (is_connected (runServer [((1 : ℚ), ([0] : List Byte))]) 3 = true ↔
      ∃ ev ∈ [((1 : ℚ), ([0] : List Byte))], 0 < ev.1 ∧ (3 : ℚ) - ev.1 < 5) :=
  c3_connected_amended [((1 : ℚ), ([0] : List Byte))] 3 (by simp)

/-! ### ILDA file decoder (`ilda_integration.py`, `ILDALoader._parse_ilda_data`) -/

/-- Parsed ILDA section header (`IldaHeader` dataclass).  The two 8-byte
name fields are modelled as their raw bytes with trailing zero bytes
stripped (`rstrip(b"\x00")`; the lossy `decode(errors="ignore")` to `str`
is not modelled). -/
structure IldaHeader where
  format : ℕ
  frame_name : List Byte
  company_name : List Byte
  records : ℕ
  frame_number : ℕ
  total_frames : ℕ
  projector_number : ℕ
deriving Repr, DecidableEq

/-- A decoded ILDA point tuple `(x, y, z, status, r, g, b)`. -/
structure IldaFilePoint where
  x : ℤ
  y : ℤ
  z : ℤ
  status : ℕ
  r : ℕ
  g : ℕ
  b : ℕ
deriving Repr, DecidableEq

/-- A decoded ILDA frame (`IldaFrame` dataclass). -/
structure IldaFrame where
  format : ℕ
  points : List IldaFilePoint
  header : IldaHeader
deriving Repr, DecidableEq

abbrev Palette := List (ℕ × ℕ × ℕ)

/-- The initial shared palette: 256 entries of opaque white. -/
def initPalette : Palette := List.replicate 256 (255, 255, 255)

/-- `bytes.rstrip(b"\x00")`: drop trailing zero bytes. -/
def rstripZero (l : List Byte) : List Byte :=
  (l.reverse.dropWhile (fun b => b == 0)).reverse

/-- The 4-byte section magic `b"ILDA"`. -/
def ildaMagic : List Byte := [73, 76, 68, 65]

/-- `ILDALoader._read_ilda_header`: reads a 32-byte big-endian header at
the current offset; `none` when fewer than 32 bytes remain or the magic
does not match.  Operates on the suffix of the buffer from the current
offset and returns the suffix after the header. -/
def read_ilda_header (rest : List Byte) : Option (IldaHeader × List Byte) :=
  if 32 ≤ rest.length then
    if rest.take 4 = ildaMagic then
      some ({ format := (rest.getD 7 0).val,
              frame_name := rstripZero ((rest.drop 8).take 8),
              company_name := rstripZero ((rest.drop 16).take 8),
              records := (rest.getD 24 0).val * 256 + (rest.getD 25 0).val,
              frame_number := (rest.getD 26 0).val * 256 + (rest.getD 27 0).val,
              total_frames := (rest.getD 28 0).val * 256 + (rest.getD 29 0).val,
              projector_number := (rest.getD 30 0).val },
            rest.drop 32)
    else none
  else none

/-- Format-0 records (3D coordinates + indexed color, 8 bytes `>hhhBB`):
each record's color index is resolved against the current palette.  The
palette access `palette[color_index]` is modelled as a checked access,
`.error` when out of range (never reached — see the C9 theorem).  A
truncated record ends the frame without consuming the partial record. -/
def parseFmt0 (palette : Palette) :
    ℕ → List Byte → Except Unit (List IldaFilePoint × List Byte)
  | 0, rest => .ok ([], rest)
  | n + 1, b0 :: b1 :: b2 :: b3 :: b4 :: b5 :: b6 :: b7 :: rest =>
    match palette[b7.val]? with
    | some c =>
      match parseFmt0 palette n rest with
      | .error e => .error e
      | .ok (ps, rest2) =>
        .ok (⟨s16be b0 b1, s16be b2 b3, s16be b4 b5, b6.val,
              c.1, c.2.1, c.2.2⟩ :: ps, rest2)
    | none => .error ()
  | _ + 1, rest => .ok ([], rest)

/-- Format-1 records (2D coordinates + indexed color, 6 bytes `>hhBB`,
`z = 0`). -/
def parseFmt1 (palette : Palette) :
    ℕ → List Byte → Except Unit (List IldaFilePoint × List Byte)
  | 0, rest => .ok ([], rest)
  | n + 1, b0 :: b1 :: b2 :: b3 :: b4 :: b5 :: rest =>
    match palette[b5.val]? with
    | some c =>
      match parseFmt1 palette n rest with
      | .error e => .error e
      | .ok (ps, rest2) =>
        .ok (⟨s16be b0 b1, s16be b2 b3, 0, b4.val, c.1, c.2.1, c.2.2⟩ :: ps, rest2)
    | none => .error ()
  | _ + 1, rest => .ok ([], rest)

/-- Format-2 records (color palette, 3 bytes `>BBB`): entry `i` of the
shared palette is replaced in place, but only for `i < 256`; the offset
advances for every complete record regardless. -/
def parseFmt2 (palette : Palette) (i : ℕ) :
    ℕ → List Byte → Palette × List Byte
  | 0, rest => (palette, rest)
  | n + 1, b0 :: b1 :: b2 :: rest =>
    parseFmt2 (if i < 256 then palette.set i (b0.val, b1.val, b2.val) else palette)
      (i + 1) n rest
  | _ + 1, rest => (palette, rest)

/-- Format-4 records (3D coordinates + truecolor, 10 bytes `>hhhBBBB`,
channel order b, g, r in the record). -/
def parseFmt4 : ℕ → List Byte → List IldaFilePoint × List Byte
  | 0, rest => ([], rest)
  | n + 1, b0 :: b1 :: b2 :: b3 :: b4 :: b5 :: b6 :: b7 :: b8 :: b9 :: rest =>
    let res := parseFmt4 n rest
    (⟨s16be b0 b1, s16be b2 b3, s16be b4 b5, b6.val,
      b9.val, b8.val, b7.val⟩ :: res.1, res.2)
  | _ + 1, rest => ([], rest)

/-- Format-5 records (2D coordinates + truecolor, 8 bytes `>hhBBBB`,
channel order b, g, r, `z = 0`). -/
def parseFmt5 : ℕ → List Byte → List IldaFilePoint × List Byte
  | 0, rest => ([], rest)
  | n + 1, b0 :: b1 :: b2 :: b3 :: b4 :: b5 :: b6 :: b7 :: rest =>
    let res := parseFmt5 n rest
    (⟨s16be b0 b1, s16be b2 b3, 0, b4.val,
      b7.val, b6.val, b5.val⟩ :: res.1, res.2)
  | _ + 1, rest => ([], rest)

theorem parseFmt0_length (palette : Palette) :
    ∀ (n : ℕ) (rest : List Byte) (ps : List IldaFilePoint) (rest2 : List Byte),
      parseFmt0 palette n rest = .ok (ps, rest2) → rest2.length ≤ rest.length := by
  intro n
  induction n with
  | zero =>
    intro rest ps rest2 h
    simp only [parseFmt0, Except.ok.injEq, Prod.mk.injEq] at h
    simp [← h.2]
  | succ n ih =>
    intro rest ps rest2 h
    match rest with
    | [] => simp only [parseFmt0, Except.ok.injEq, Prod.mk.injEq] at h; simp [← h.2]
    | b0 :: b1 :: b2 :: b3 :: b4 :: b5 :: b6 :: b7 :: t =>
      simp only [parseFmt0] at h
      split at h
      · split at h
        · cases h
        · rename_i ps' rest2' hrec
          simp only [Except.ok.injEq, Prod.mk.injEq] at h
          obtain ⟨-, rfl⟩ := h
          have := ih t ps' rest2' hrec
          simp only [List.length_cons]
          omega
      · cases h
    | [b0] | [b0, b1] | [b0, b1, b2] | [b0, b1, b2, b3] | [b0, b1, b2, b3, b4]
    | [b0, b1, b2, b3, b4, b5] | [b0, b1, b2, b3, b4, b5, b6] =>
      simp only [parseFmt0, Except.ok.injEq, Prod.mk.injEq] at h
      simp [← h.2]

theorem parseFmt1_length (palette : Palette) :
    ∀ (n : ℕ) (rest : List Byte) (ps : List IldaFilePoint) (rest2 : List Byte),
      parseFmt1 palette n rest = .ok (ps, rest2) → rest2.length ≤ rest.length := by
  intro n
  induction n with
  | zero =>
    intro rest ps rest2 h
    simp only [parseFmt1, Except.ok.injEq, Prod.mk.injEq] at h
    simp [← h.2]
  | succ n ih =>
    intro rest ps rest2 h
    match rest with
    | [] => simp only [parseFmt1, Except.ok.injEq, Prod.mk.injEq] at h; simp [← h.2]
    | b0 :: b1 :: b2 :: b3 :: b4 :: b5 :: t =>
      simp only [parseFmt1] at h
      split at h
      · split at h
        · cases h
        · rename_i ps' rest2' hrec
          simp only [Except.ok.injEq, Prod.mk.injEq] at h
          obtain ⟨-, rfl⟩ := h
          have := ih t ps' rest2' hrec
          simp only [List.length_cons]
          omega
      · cases h
    | [b0] | [b0, b1] | [b0, b1, b2] | [b0, b1, b2, b3] | [b0, b1, b2, b3, b4] =>
      simp only [parseFmt1, Except.ok.injEq, Prod.mk.injEq] at h
      simp [← h.2]

theorem parseFmt2_length :
    ∀ (n : ℕ) (palette : Palette) (i : ℕ) (rest : List Byte),
      ((parseFmt2 palette i n rest).2).length ≤ rest.length := by
  intro n
  induction n with
  | zero => intro palette i rest; simp [parseFmt2]
  | succ n ih =>
    intro palette i rest
    match rest with
    | [] => simp [parseFmt2]
    | b0 :: b1 :: b2 :: t =>
      simp only [parseFmt2]
      have := ih (if i < 256 then palette.set i (b0.val, b1.val, b2.val) else palette)
        (i + 1) t
      simp only [List.length_cons]
      omega
    | [b0] | [b0, b1] => simp [parseFmt2]

theorem parseFmt2_palette_length :
    ∀ (n : ℕ) (palette : Palette) (i : ℕ) (rest : List Byte),
      ((parseFmt2 palette i n rest).1).length = palette.length := by
  intro n
  induction n with
  | zero => intro palette i rest; simp [parseFmt2]
  | succ n ih =>
    intro palette i rest
    match rest with
    | [] => simp [parseFmt2]
    | b0 :: b1 :: b2 :: t =>
      simp only [parseFmt2]
      rw [ih]
      split <;> simp
    | [b0] | [b0, b1] => simp [parseFmt2]

theorem parseFmt4_length :
    ∀ (n : ℕ) (rest : List Byte), ((parseFmt4 n rest).2).length ≤ rest.length := by
  intro n
  induction n with
  | zero => intro rest; simp [parseFmt4]
  | succ n ih =>
    intro rest
    match rest with
    | [] => simp [parseFmt4]
    | b0 :: b1 :: b2 :: b3 :: b4 :: b5 :: b6 :: b7 :: b8 :: b9 :: t =>
      simp only [parseFmt4]
      have := ih t
      simp only [List.length_cons]
      omega
    | [b0] | [b0, b1] | [b0, b1, b2] | [b0, b1, b2, b3] | [b0, b1, b2, b3, b4]
    | [b0, b1, b2, b3, b4, b5] | [b0, b1, b2, b3, b4, b5, b6]
    | [b0, b1, b2, b3, b4, b5, b6, b7] | [b0, b1, b2, b3, b4, b5, b6, b7, b8] =>
      simp [parseFmt4]

theorem parseFmt5_length :
    ∀ (n : ℕ) (rest : List Byte), ((parseFmt5 n rest).2).length ≤ rest.length := by
  intro n
  induction n with
  | zero => intro rest; simp [parseFmt5]
  | succ n ih =>
    intro rest
    match rest with
    | [] => simp [parseFmt5]
    | b0 :: b1 :: b2 :: b3 :: b4 :: b5 :: b6 :: b7 :: t =>
      simp only [parseFmt5]
      have := ih t
      simp only [List.length_cons]
      omega
    | [b0] | [b0, b1] | [b0, b1, b2] | [b0, b1, b2, b3] | [b0, b1, b2, b3, b4]
    | [b0, b1, b2, b3, b4, b5] | [b0, b1, b2, b3, b4, b5, b6] =>
      simp [parseFmt5]

theorem read_ilda_header_length {rest : List Byte} {hdr : IldaHeader}
    {rest1 : List Byte} (h : read_ilda_header rest = some (hdr, rest1)) :
    rest1.length + 32 ≤ rest.length := by
  unfold read_ilda_header at h
  split at h
  · split at h
    · rename_i h32 hmagic
      simp only [Option.some.injEq, Prod.mk.injEq] at h
      obtain ⟨-, rfl⟩ := h
      simp only [List.length_drop]
      omega
    · cases h
  · cases h

/-- The `while offset < len(data)` section loop of `_parse_ilda_data`,
threading one shared palette through all sections in file order: palette
sections mutate it and append no frame; every other recognised section
appends exactly one frame; an unrecognised format (or a missing/truncated
header) stops decoding and returns what was accumulated. -/
def parseSections (palette : Palette) (rest : List Byte) :
    Except Unit (List IldaFrame × Palette) :=
  match hh : read_ilda_header rest with
  | none => .ok ([], palette)
  | some (hdr, rest1) =>
    if hdr.format = 0 then
      match h0 : parseFmt0 palette hdr.records rest1 with
      | .error e => .error e
      | .ok (pts, rest2) =>
        match parseSections palette rest2 with
        | .error e => .error e
        | .ok (frames, pal2) => .ok (⟨hdr.format, pts, hdr⟩ :: frames, pal2)
    else if hdr.format = 1 then
      match h1 : parseFmt1 palette hdr.records rest1 with
      | .error e => .error e
      | .ok (pts, rest2) =>
        match parseSections palette rest2 with
        | .error e => .error e
        | .ok (frames, pal2) => .ok (⟨hdr.format, pts, hdr⟩ :: frames, pal2)
    else if hdr.format = 2 then
      parseSections (parseFmt2 palette 0 hdr.records rest1).1
        (parseFmt2 palette 0 hdr.records rest1).2
    else if hdr.format = 4 then
      match parseSections palette (parseFmt4 hdr.records rest1).2 with
      | .error e => .error e
      | .ok (frames, pal2) =>
        .ok (⟨hdr.format, (parseFmt4 hdr.records rest1).1, hdr⟩ :: frames, pal2)
    else if hdr.format = 5 then
      match parseSections palette (parseFmt5 hdr.records rest1).2 with
      | .error e => .error e
      | .ok (frames, pal2) =>
        .ok (⟨hdr.format, (parseFmt5 hdr.records rest1).1, hdr⟩ :: frames, pal2)
    else .ok ([], palette)
termination_by rest.length
decreasing_by
  · have ha := read_ilda_header_length hh
    have hb := parseFmt0_length palette hdr.records rest1 _ _ h0
    omega
  · have ha := read_ilda_header_length hh
    have hb := parseFmt1_length palette hdr.records rest1 _ _ h1
    omega
  · have ha := read_ilda_header_length hh
    have hb := parseFmt2_length hdr.records palette 0 rest1
    omega
  · have ha := read_ilda_header_length hh
    have hb := parseFmt4_length hdr.records rest1
    omega
  · have ha := read_ilda_header_length hh
    have hb := parseFmt5_length hdr.records rest1
    omega

/-- `ILDALoader._parse_ilda_data`: decode a whole buffer starting from the
fresh all-white 256-entry palette. -/
def parse_ilda_data (data : List Byte) :
    Except Unit (List IldaFrame × Palette) :=
  parseSections initPalette data

theorem parseSections_eq_none {palette : Palette} {rest : List Byte}
    (h : read_ilda_header rest = none) :
    parseSections palette rest = .ok ([], palette) := by
  rw [parseSections]
  split
  · rfl
  · rename_i hdr' rest1' heq
    rw [h] at heq
    cases heq

theorem parseSections_eq_some {palette : Palette} {rest : List Byte}
    {hdr : IldaHeader} {rest1 : List Byte}
    (h : read_ilda_header rest = some (hdr, rest1)) :
    parseSections palette rest =
      (if hdr.format = 0 then
        match parseFmt0 palette hdr.records rest1 with
        | .error e => .error e
        | .ok (pts, rest2) =>
          match parseSections palette rest2 with
          | .error e => .error e
          | .ok (frames, pal2) => .ok (⟨hdr.format, pts, hdr⟩ :: frames, pal2)
      else if hdr.format = 1 then
        match parseFmt1 palette hdr.records rest1 with
        | .error e => .error e
        | .ok (pts, rest2) =>
          match parseSections palette rest2 with
          | .error e => .error e
          | .ok (frames, pal2) => .ok (⟨hdr.format, pts, hdr⟩ :: frames, pal2)
      else if hdr.format = 2 then
        parseSections (parseFmt2 palette 0 hdr.records rest1).1
          (parseFmt2 palette 0 hdr.records rest1).2
      else if hdr.format = 4 then
        match parseSections palette (parseFmt4 hdr.records rest1).2 with
        | .error e => .error e
        | .ok (frames, pal2) =>
          .ok (⟨hdr.format, (parseFmt4 hdr.records rest1).1, hdr⟩ :: frames, pal2)
      else if hdr.format = 5 then
        match parseSections palette (parseFmt5 hdr.records rest1).2 with
        | .error e => .error e
        | .ok (frames, pal2) =>
          .ok (⟨hdr.format, (parseFmt5 hdr.records rest1).1, hdr⟩ :: frames, pal2)
      else .ok ([], palette)) := by
  rw [parseSections]
  split
  · rename_i heq
    rw [h] at heq
    cases heq
  · rename_i hdr' rest1' heq
    rw [h] at heq
    simp only [Option.some.injEq, Prod.mk.injEq] at heq
    obtain ⟨rfl, rfl⟩ := heq
    split
    · split
      · rename_i e heq'
        rw [heq']
      · rename_i pts rest2 heq'
        rw [heq']
    · split
      · split
        · rename_i e heq'
          rw [heq']
        · rename_i pts rest2 heq'
          rw [heq']
      · split
        · rfl
        · split
          · rfl
          · split
            · rfl
            · rfl

theorem parseFmt0_ok (palette : Palette) (hpal : palette.length = 256) :
    ∀ (n : ℕ) (rest : List Byte),
      ∃ ps rest2, parseFmt0 palette n rest = .ok (ps, rest2) := by
  intro n
  induction n with
  | zero => intro rest; exact ⟨[], rest, rfl⟩
  | succ n ih =>
    intro rest
    match rest with
    | [] => exact ⟨[], [], rfl⟩
    | b0 :: b1 :: b2 :: b3 :: b4 :: b5 :: b6 :: b7 :: t =>
      obtain ⟨ps, rest2, hrec⟩ := ih t
      have hlt : b7.val < palette.length := by rw [hpal]; exact b7.isLt
      simp only [parseFmt0, List.getElem?_eq_getElem hlt, hrec]
      exact ⟨_, _, rfl⟩
    | [b0] | [b0, b1] | [b0, b1, b2] | [b0, b1, b2, b3] | [b0, b1, b2, b3, b4]
    | [b0, b1, b2, b3, b4, b5] | [b0, b1, b2, b3, b4, b5, b6] =>
      exact ⟨[], _, rfl⟩

theorem parseFmt1_ok (palette : Palette) (hpal : palette.length = 256) :
    ∀ (n : ℕ) (rest : List Byte),
      ∃ ps rest2, parseFmt1 palette n rest = .ok (ps, rest2) := by
  intro n
  induction n with
  | zero => intro rest; exact ⟨[], rest, rfl⟩
  | succ n ih =>
    intro rest
    match rest with
    | [] => exact ⟨[], [], rfl⟩
    | b0 :: b1 :: b2 :: b3 :: b4 :: b5 :: t =>
      obtain ⟨ps, rest2, hrec⟩ := ih t
      have hlt : b5.val < palette.length := by rw [hpal]; exact b5.isLt
      simp only [parseFmt1, List.getElem?_eq_getElem hlt, hrec]
      exact ⟨_, _, rfl⟩
    | [b0] | [b0, b1] | [b0, b1, b2] | [b0, b1, b2, b3] | [b0, b1, b2, b3, b4] =>
      exact ⟨[], _, rfl⟩

theorem parseSections_total (N : ℕ) :
    ∀ rest : List Byte, rest.length ≤ N → ∀ palette : Palette,
      palette.length = 256 →
      ∃ frames pal2, parseSections palette rest = .ok (frames, pal2) ∧
        pal2.length = 256 := by
  induction N with
  | zero =>
    intro rest hlen palette hpal
    have hnil : rest = [] := List.eq_nil_of_length_eq_zero (by omega)
    subst hnil
    exact ⟨[], palette, parseSections_eq_none rfl, hpal⟩
  | succ N ih =>
    intro rest hlen palette hpal
    cases hh : read_ilda_header rest with
    | none => exact ⟨[], palette, parseSections_eq_none hh, hpal⟩
    | some pr =>
      obtain ⟨hdr, rest1⟩ := pr
      have h32 := read_ilda_header_length hh
      rw [parseSections_eq_some hh]
      by_cases hf0 : hdr.format = 0
      · rw [if_pos hf0]
        obtain ⟨pts, rest2, h0⟩ := parseFmt0_ok palette hpal hdr.records rest1
        have hl2 := parseFmt0_length palette hdr.records rest1 _ _ h0
        obtain ⟨frames, pal2, hrec, hp2⟩ := ih rest2 (by omega) palette hpal
        refine ⟨⟨hdr.format, pts, hdr⟩ :: frames, pal2, ?_, hp2⟩
        simp only [h0, hrec]
      · rw [if_neg hf0]
        by_cases hf1 : hdr.format = 1
        · rw [if_pos hf1]
          obtain ⟨pts, rest2, h1⟩ := parseFmt1_ok palette hpal hdr.records rest1
          have hl2 := parseFmt1_length palette hdr.records rest1 _ _ h1
          obtain ⟨frames, pal2, hrec, hp2⟩ := ih rest2 (by omega) palette hpal
          refine ⟨⟨hdr.format, pts, hdr⟩ :: frames, pal2, ?_, hp2⟩
          simp only [h1, hrec]
        · rw [if_neg hf1]
          by_cases hf2 : hdr.format = 2
          · rw [if_pos hf2]
            have hplen : ((parseFmt2 palette 0 hdr.records rest1).1).length = 256 := by
              rw [parseFmt2_palette_length]
              exact hpal
            have hrlen := parseFmt2_length hdr.records palette 0 rest1
            exact ih _ (by omega) _ hplen
          · rw [if_neg hf2]
            by_cases hf4 : hdr.format = 4
            · rw [if_pos hf4]
              have hrlen := parseFmt4_length hdr.records rest1
              obtain ⟨frames, pal2, hrec, hp2⟩ :=
                ih (parseFmt4 hdr.records rest1).2 (by omega) palette hpal
              refine ⟨⟨hdr.format, (parseFmt4 hdr.records rest1).1, hdr⟩ :: frames,
                pal2, ?_, hp2⟩
              simp only [hrec]
            · rw [if_neg hf4]
              by_cases hf5 : hdr.format = 5
              · rw [if_pos hf5]
                have hrlen := parseFmt5_length hdr.records rest1
                obtain ⟨frames, pal2, hrec, hp2⟩ :=
                  ih (parseFmt5 hdr.records rest1).2 (by omega) palette hpal
                refine ⟨⟨hdr.format, (parseFmt5 hdr.records rest1).1, hdr⟩ :: frames,
                  pal2, ?_, hp2⟩
                simp only [hrec]
              · rw [if_neg hf5]
                exact ⟨[], palette, rfl, hpal⟩

/-- C9: ILDA decoding of an arbitrary byte buffer is total and safe: it
always succeeds (every checked palette access `palette[color_index]` is in
range — the decoder never raises), and the shared palette retains exactly
256 entries throughout, format-2 sections writing only indices `< 256`
even when the record count exceeds 256. -/
theorem c9_ilda_decode_total (data : List Byte) :
    ∃ frames palette, parse_ilda_data data = .ok (frames, palette) ∧
      palette.length = 256 :=
  parseSections_total data.length data le_rfl initPalette
    (by unfold initPalette; exact List.length_replicate 256 _)

/-! ### Claim C5: palette threading across sections -/

/-- A 32-byte format-2 (palette) section header declaring 3 records:
magic `ILDA`, format code 2 at offset 7, record count 3 at offsets 24-25,
all other fields zero. -/
def palHeader3 : List Byte :=
  [73, 76, 68, 65, 0, 0, 0, 2,
   0, 0, 0, 0, 0, 0, 0, 0,
   0, 0, 0, 0, 0, 0, 0, 0,
   0, 3, 0, 0, 0, 0, 0, 0]

/-- A 32-byte format-1 (2D indexed) section header declaring 2 records. -/
def fmt1Header2 : List Byte :=
  [73, 76, 68, 65, 0, 0, 0, 1,
   0, 0, 0, 0, 0, 0, 0, 0,
   0, 0, 0, 0, 0, 0, 0, 0,
   0, 2, 0, 0, 0, 0, 0, 0]

/-- Selector for the three palette entries loaded by the format-2
section. -/
def tripleOf (c0 c1 c2 : ℕ × ℕ × ℕ) : Fin 3 → ℕ × ℕ × ℕ
  | 0 => c0
  | 1 => c1
  | 2 => c2

theorem parseFmt1_two (palette : Palette)
    (xh1 xl1 yh1 yl1 s1 ci1 xh2 xl2 yh2 yl2 s2 ci2 : Byte)
    (c1 c2 : ℕ × ℕ × ℕ)
    (h1 : palette[ci1.val]? = some c1) (h2 : palette[ci2.val]? = some c2) :
    parseFmt1 palette 2 [xh1, xl1, yh1, yl1, s1, ci1, xh2, xl2, yh2, yl2, s2, ci2]
      = .ok ([⟨s16be xh1 xl1, s16be yh1 yl1, 0, s1.val, c1.1, c1.2.1, c1.2.2⟩,
              ⟨s16be xh2 xl2, s16be yh2 yl2, 0, s2.val, c2.1, c2.2.1, c2.2.2⟩],
             []) := by
  simp only [parseFmt1, h1, h2]

set_option maxRecDepth 8000 in
theorem palette_lookup_after_set (c0 c1 c2 : ℕ × ℕ × ℕ) (i : Fin 3) :
    (((initPalette.set 0 c0).set 1 c1).set 2
        c2)[(Fin.castLE (show (3:ℕ) ≤ 256 by norm_num) i).val]?
      = some (tripleOf c0 c1 c2 i) := by
  fin_cases i <;> rfl

/-- Reading a `palHeader3`-headed buffer: format 2, 3 records. -/
theorem read_palHeader3 (t : List Byte) :
    read_ilda_header (palHeader3 ++ t) = some (⟨2, [], [], 3, 0, 0, 0⟩, t) := by
  unfold palHeader3
  simp only [List.cons_append, List.nil_append]
  unfold read_ilda_header
  rw [if_pos (by simp)]
  norm_num [ildaMagic]
  decide

/-- Reading a `fmt1Header2`-headed buffer: format 1, 2 records. -/
theorem read_fmt1Header2 (t : List Byte) :
    read_ilda_header (fmt1Header2 ++ t) = some (⟨1, [], [], 2, 0, 0, 0⟩, t) := by
  unfold fmt1Header2
  simp only [List.cons_append, List.nil_append]
  unfold read_ilda_header
  rw [if_pos (by simp)]
  norm_num [ildaMagic]
  decide

set_option maxRecDepth 8000 in
/-- C5: ILDA decoding threads one shared palette through all sections in
file order: a format-2 section of 3 entries replaces palette entries 0, 1
and 2 in place and appends no frame, and the following format-1 section of
2 records resolves each point's color against the palette as just mutated
— the decode yields a 1-element frame list whose 2 points carry exactly
the colors set by the palette section, for every choice of palette bytes,
record coordinates, status bytes and referenced indices. -/
theorem c5_palette_threading
    (r0 g0 b0 r1 g1 b1 r2 g2 b2 : Byte)
    (xh1 xl1 yh1 yl1 s1 : Byte) (i1 : Fin 3)
    (xh2 xl2 yh2 yl2 s2 : Byte) (i2 : Fin 3) :
    parse_ilda_data (palHeader3 ++ [r0, g0, b0, r1, g1, b1, r2, g2, b2] ++
        fmt1Header2 ++
        [xh1, xl1, yh1, yl1, s1, Fin.castLE (show (3:ℕ) ≤ 256 by norm_num) i1,
         xh2, xl2, yh2, yl2, s2, Fin.castLE (show (3:ℕ) ≤ 256 by norm_num) i2]) =
      .ok ([⟨1,
        [⟨s16be xh1 xl1, s16be yh1 yl1, 0, s1.val,
           (tripleOf (r0.val, g0.val, b0.val) (r1.val, g1.val, b1.val)
               (r2.val, g2.val, b2.val) i1).1,
           (tripleOf (r0.val, g0.val, b0.val) (r1.val, g1.val, b1.val)
               (r2.val, g2.val, b2.val) i1).2.1,
           (tripleOf (r0.val, g0.val, b0.val) (r1.val, g1.val, b1.val)
               (r2.val, g2.val, b2.val) i1).2.2⟩,
         ⟨s16be xh2 xl2, s16be yh2 yl2, 0, s2.val,
           (tripleOf (r0.val, g0.val, b0.val) (r1.val, g1.val, b1.val)
               (r2.val, g2.val, b2.val) i2).1,
           (tripleOf (r0.val, g0.val, b0.val) (r1.val, g1.val, b1.val)
               (r2.val, g2.val, b2.val) i2).2.1,
           (tripleOf (r0.val, g0.val, b0.val) (r1.val, g1.val, b1.val)
               (r2.val, g2.val, b2.val) i2).2.2⟩],
        ⟨1, [], [], 2, 0, 0, 0⟩⟩],
       ((initPalette.set 0 (r0.val, g0.val, b0.val)).set 1
          (r1.val, g1.val, b1.val)).set 2 (r2.val, g2.val, b2.val)) := by
  rw [parse_ilda_data, List.append_assoc, List.append_assoc,
    parseSections_eq_some (read_palHeader3 _)]
  rw [if_neg (by decide), if_neg (by decide), if_pos (by decide)]
  have hB1 : (parseFmt2 initPalette 0
      ((⟨2, [], [], 3, 0, 0, 0⟩ : IldaHeader).records)
      ([r0, g0, b0, r1, g1, b1, r2, g2, b2] ++ (fmt1Header2 ++
        [xh1, xl1, yh1, yl1, s1, Fin.castLE (show (3:ℕ) ≤ 256 by norm_num) i1,
         xh2, xl2, yh2, yl2, s2, Fin.castLE (show (3:ℕ) ≤ 256 by norm_num) i2]))).1
      = ((initPalette.set 0 (r0.val, g0.val, b0.val)).set 1
          (r1.val, g1.val, b1.val)).set 2 (r2.val, g2.val, b2.val) := rfl
  have hB2 : (parseFmt2 initPalette 0
      ((⟨2, [], [], 3, 0, 0, 0⟩ : IldaHeader).records)
      ([r0, g0, b0, r1, g1, b1, r2, g2, b2] ++ (fmt1Header2 ++
        [xh1, xl1, yh1, yl1, s1, Fin.castLE (show (3:ℕ) ≤ 256 by norm_num) i1,
         xh2, xl2, yh2, yl2, s2, Fin.castLE (show (3:ℕ) ≤ 256 by norm_num) i2]))).2
      = fmt1Header2 ++
        [xh1, xl1, yh1, yl1, s1, Fin.castLE (show (3:ℕ) ≤ 256 by norm_num) i1,
         xh2, xl2, yh2, yl2, s2, Fin.castLE (show (3:ℕ) ≤ 256 by norm_num) i2] := rfl
  rw [hB1, hB2, parseSections_eq_some (read_fmt1Header2 _)]
  rw [if_neg (by decide), if_pos (by decide)]
  rw [show (⟨1, [], [], 2, 0, 0, 0⟩ : IldaHeader).records = 2 from rfl]
  rw [parseFmt1_two _ _ _ _ _ _ _ _ _ _ _ _ _ _ _
        (palette_lookup_after_set (r0.val, g0.val, b0.val) (r1.val, g1.val, b1.val)
          (r2.val, g2.val, b2.val) i1)
        (palette_lookup_after_set (r0.val, g0.val, b0.val) (r1.val, g1.val, b1.val)
          (r2.val, g2.val, b2.val) i2)]
  simp only []
  rw [parseSections_eq_none (show read_ilda_header ([] : List Byte) = none from rfl)]

end IWPLaser
